import Mathlib

/-! telldusmq: event translation between the Telldus daemon and MQTT.

A verification development over `main.go`.  Go strings are byte sequences; the
wire format is ASCII, and a string is represented here as the list of its
bytes written as characters (`Str`).  Library calls (`strings.Split`,
`strings.Index`, `strconv.Atoi`, `text/template`, `encoding/json`) are
represented by functions of the same behaviour or by parameters.
-/

set_option autoImplicit false
set_option maxRecDepth 100000

namespace Telldusmq

/-- A Go string, as the list of its bytes. -/
abbrev Str := List Char

/-! ## Data model -/

/-- The struct `TelldusEvent` of `main.go`. -/
structure TelldusEvent where
  Class : Str
  Protocol : Str
  Model : Str
  Code : Str
  House : Str
  Unit : Str
  Group : Str
  Method : Str
  Id : Str
  Temp : Str
  Humidity : Str
  Value : Str
  DataType : Str
deriving DecidableEq, Repr

/-- The struct `TellstickMQTTBrokerEvent` of `main.go`. -/
structure TellstickMQTTBrokerEvent where
  Protocol : Str
  DeviceID : Int
  House : Nat
  Unit : Int
  Method : Str
  Level : Int
deriving DecidableEq, Repr

/-- The configuration values read through `viper` by the functions below. -/
structure Config where
  /-- The key `Mqtt.Events.PublishTopic`. -/
  eventsPublishTopic : Str
  /-- The key `Mqtt.Events.PublishPayload`. -/
  eventsPublishPayload : Str
  /-- The key `Mqtt.Sensors.PublishTopic`. -/
  sensorsPublishTopic : Str
  /-- The key `Mqtt.Sensors.PublishPayload`. -/
  sensorsPublishPayload : Str
  /-- The key `Tellstick.MapTurnOnTo`. -/
  mapTurnOnTo : Str
  /-- The key `Tellstick.MapTurnOffTo`. -/
  mapTurnOffTo : Str
  /-- The key `Tellstick.SplitTemperatureAndHumidity`. -/
  splitTemperatureAndHumidity : Bool
  /-- The key `Tellstick.ReverseMappingOnIncoming`. -/
  reverseMappingOnIncoming : Bool
deriving DecidableEq, Repr

/-- The ways a goroutine of `main.go` can panic. -/
inductive Panic where
  /-- A Go runtime error: index or slice bounds out of range. -/
  | indexOutOfRange
  /-- The call `log.Panicf` in `parseTemplate`. -/
  | templateError
deriving DecidableEq, Repr

/-- The `text/template` library: parsing and executing a template on an event
gives the rendered text, or `none` when parsing or execution reports an error. -/
abbrev Renderer := Str → TelldusEvent → Option Str

/-! ## Library functions -/

/-- The Go call `strings.Split(s, sep)` for a one-byte separator. -/
def stringsSplit (sep : Char) : Str → List Str
  | [] => [[]]
  | c :: cs =>
    if c = sep then [] :: stringsSplit sep cs
    else
      match stringsSplit sep cs with
      | [] => [[c]]
      | h :: t => (c :: h) :: t

/-- The Go call `strings.Index(s, substr)`: the position of the first
occurrence of `substr` in `s`, or `-1`. -/
def stringsIndex (substr : Str) : Str → Int
  | [] => if substr = [] then 0 else -1
  | c :: cs =>
    if substr.isPrefixOf (c :: cs) then 0
    else
      let i := stringsIndex substr cs
      if i < 0 then -1 else i + 1

/-- The Go call `strings.Contains(s, substr)`. -/
def stringsContains (s substr : Str) : Bool :=
  decide (0 ≤ stringsIndex substr s)

/-- The Go index expression `xs[i]`, which panics when `i` is out of range. -/
def goIndex {α : Type} (xs : List α) (i : Nat) : Except Panic α :=
  match xs.get? i with
  | some x => .ok x
  | none => .error .indexOutOfRange

/-! ## Outbound path: `rawTelldusEvent` -/

/-- The function `parseTemplate`: a template error ends in `log.Panicf`. -/
def parseTemplate (render : Renderer) (templateString : Str) (event : TelldusEvent) :
    Except Panic Str :=
  match render templateString event with
  | some s => .ok s
  | none => .error .templateError

/-- The initial value of `event` in `rawTelldusEvent`. -/
def initialEvent : TelldusEvent :=
  { Class := [], Protocol := [], Model := []
    Code := "0".toList, House := "0".toList, Unit := "0".toList, Group := "0".toList
    Method := "0".toList, Id := "0".toList, Temp := "0".toList, Humidity := "0".toList
    Value := "0".toList, DataType := [] }

/-- The assignment `event.X = propval[1]` of one `case` of the switch. -/
def assignValue (propval : List Str) (set : Str → TelldusEvent) : Except Panic TelldusEvent :=
  match goIndex propval 1 with
  | .ok v => .ok (set v)
  | .error p => .error p

/-- The non-empty-field branch of the loop of `rawTelldusEvent`: split the
field at `:` and switch on `propval[0]`. -/
def setField (event : TelldusEvent) (elm : Str) : Except Panic TelldusEvent :=
  let propval := stringsSplit ':' elm
  match goIndex propval 0 with
  | .error p => .error p
  | .ok key =>
    if key = "class".toList then assignValue propval (fun v => { event with Class := v })
    else if key = "protocol".toList then
      assignValue propval (fun v => { event with Protocol := v })
    else if key = "model".toList then assignValue propval (fun v => { event with Model := v })
    else if key = "code".toList then assignValue propval (fun v => { event with Code := v })
    else if key = "house".toList then assignValue propval (fun v => { event with House := v })
    else if key = "unit".toList then assignValue propval (fun v => { event with Unit := v })
    else if key = "group".toList then assignValue propval (fun v => { event with Group := v })
    else if key = "method".toList then
      assignValue propval (fun v => { event with Method := v })
    else if key = "id".toList then assignValue propval (fun v => { event with Id := v })
    else if key = "temp".toList then assignValue propval (fun v => { event with Temp := v })
    else if key = "humidity".toList then
      assignValue propval (fun v => { event with Humidity := v })
    else .ok event

/-- One call `mqttClient.Publish(topicString, 0, false, payloadString)`, with
the event value that was rendered into both strings. -/
structure Publication where
  topic : Str
  payload : Str
  event : TelldusEvent
deriving DecidableEq, Repr

/-- One execution of the empty-field branch of the loop of `rawTelldusEvent`:
the event as it stood on entry and the publications made. -/
structure Emission where
  handed : TelldusEvent
  published : List Publication
deriving DecidableEq, Repr

/-- Lines 179-198: choice of the templates, alias mapping of the method for
class `command`, and the derived `Value` and `DataType` otherwise. -/
def mapOutbound (cfg : Config) (event : TelldusEvent) : Str × Str × TelldusEvent :=
  if event.Class = "command".toList then
    let turnOn := cfg.mapTurnOnTo
    let turnOff := cfg.mapTurnOffTo
    let event1 :=
      if turnOn.length > 0 ∧ event.Method = "turnon".toList then
        { event with Method := turnOn }
      else event
    let event2 :=
      if turnOff.length > 0 ∧ event1.Method = "turnoff".toList then
        { event1 with Method := turnOff }
      else event1
    (cfg.eventsPublishTopic, cfg.eventsPublishPayload, event2)
  else
    (cfg.sensorsPublishTopic, cfg.sensorsPublishPayload,
      { event with Value := event.Temp, DataType := "temp".toList })

/-- Render both templates on `event` and publish the result. -/
def publishEvent (render : Renderer) (topicTemplate payloadTemplate : Str)
    (event : TelldusEvent) : Except Panic Publication :=
  match parseTemplate render topicTemplate event with
  | .error p => .error p
  | .ok topicString =>
    match parseTemplate render payloadTemplate event with
    | .error p => .error p
    | .ok payloadString => .ok ⟨topicString, payloadString, event⟩

/-- The empty-field branch of the loop of `rawTelldusEvent` (lines 177-222):
the event after the branch, the record of the emission, and the panic that
ended it, if any. -/
def emitEvent (cfg : Config) (render : Renderer) (event : TelldusEvent) :
    TelldusEvent × Emission × Option Panic :=
  match mapOutbound cfg event with
  | (topicTemplate, payloadTemplate, event1) =>
    match publishEvent render topicTemplate payloadTemplate event1 with
    | .error p => (event1, ⟨event, []⟩, some p)
    | .ok pub1 =>
      if cfg.splitTemperatureAndHumidity = true ∧ event1.Class = "sensor".toList then
        let event2 := { event1 with DataType := "humidity".toList, Value := event1.Humidity }
        match publishEvent render topicTemplate payloadTemplate event2 with
        | .error p => (event2, ⟨event, [pub1]⟩, some p)
        | .ok pub2 => (event2, ⟨event, [pub1, pub2]⟩, none)
      else (event1, ⟨event, [pub1]⟩, none)

/-- What a run of the loop of `rawTelldusEvent` did: the final value of
`event`, the emissions in order, and the panic that ended the run, if any. -/
structure RawRun where
  event : TelldusEvent
  emissions : List Emission
  panic : Option Panic
deriving DecidableEq, Repr

/-- The loop `for _, elm := range data` of `rawTelldusEvent`. -/
def rawTelldusEventLoop (cfg : Config) (render : Renderer) :
    List Str → TelldusEvent → RawRun
  | [], event => ⟨event, [], none⟩
  | elm :: rest, event =>
    if elm.length ≠ 0 then
      match setField event elm with
      | .error p => ⟨event, [], some p⟩
      | .ok event1 => rawTelldusEventLoop cfg render rest event1
    else
      match emitEvent cfg render event with
      | (event1, em, some p) => ⟨event1, [em], some p⟩
      | (event1, em, none) =>
        let r := rawTelldusEventLoop cfg render rest event1
        ⟨r.event, em :: r.emissions, r.panic⟩

/-- The function `rawTelldusEvent`. -/
def rawTelldusEvent (cfg : Config) (render : Renderer) (str : Str) : RawRun :=
  rawTelldusEventLoop cfg render (stringsSplit ';' str) initialEvent

/-! ## Inbound path -/

/-- Modelled from the spec: the constant `tellduscore.TellstickTurnoffString`,
declared in package `tellduscore`; the fixed method vocabulary is
turnoff, turnon, learn, dim. -/
def TellstickTurnoffString : Str := "turnoff".toList

/-- Modelled from the spec: the constant `tellduscore.TellstickTurnonString`,
declared in package `tellduscore`. -/
def TellstickTurnonString : Str := "turnon".toList

/-- Modelled from the spec: the constant `tellduscore.TellstickLearnString`,
declared in package `tellduscore`. -/
def TellstickLearnString : Str := "learn".toList

/-- Modelled from the spec: the constant `tellduscore.TellstickDimString`,
declared in package `tellduscore`. -/
def TellstickDimString : Str := "dim".toList

/-- A request handed to `sendTelldusDeviceEvent`, by the call that builds it. -/
inductive Request where
  /-- The call `tellduscore.GetTellstickMessage(function, deviceID)`. -/
  | message (function : Str) (deviceID : Int)
  /-- The call `tellduscore.GetTellstickMessageLevel(function, deviceID, level)`. -/
  | messageLevel (function : Str) (deviceID : Int) (level : Int)
deriving DecidableEq, Repr

/-- The log line written by `handleTelldusDeviceIDEvent`, one per switch case. -/
inductive LogLine where
  | turnOff
  | turnOn
  | learn
  | dim
  | unknownMethod (method : Str)
deriving DecidableEq, Repr

/-- What one call of `handleTelldusDeviceIDEvent` did: the request sent to the
daemon, if any, and the line logged. -/
structure Handled where
  sent : Option Request
  logged : LogLine
deriving DecidableEq, Repr

/-- Lines 230-241: the reverse mapping of the method of an inbound event. -/
def reverseMap (cfg : Config) (event : TellstickMQTTBrokerEvent) : TellstickMQTTBrokerEvent :=
  if cfg.reverseMappingOnIncoming = true then
    let turnOn := cfg.mapTurnOnTo
    let turnOff := cfg.mapTurnOffTo
    let event1 :=
      if turnOn.length > 0 ∧ event.Method = turnOn then
        { event with Method := "turnon".toList }
      else event
    if turnOff.length > 0 ∧ event1.Method = turnOff then
      { event1 with Method := "turnoff".toList }
    else event1
  else event

/-- The function `handleTelldusDeviceIDEvent`; `socketUp` tells whether
`telldusSocket != nil`. -/
def handleTelldusDeviceIDEvent (cfg : Config) (socketUp : Bool)
    (event : TellstickMQTTBrokerEvent) : Handled :=
  let event := reverseMap cfg event
  if event.Method = TellstickTurnoffString then
    ⟨if socketUp = true then some (.message "tdTurnOff".toList event.DeviceID) else none,
      .turnOff⟩
  else if event.Method = TellstickTurnonString then
    ⟨if socketUp = true then some (.message "tdTurnOn".toList event.DeviceID) else none,
      .turnOn⟩
  else if event.Method = TellstickLearnString then
    ⟨if socketUp = true then some (.message "tdLearn".toList event.DeviceID) else none,
      .learn⟩
  else if event.Method = TellstickDimString then
    ⟨if socketUp = true then
        some (.messageLevel "tdDim".toList event.DeviceID event.Level)
      else none,
      .dim⟩
  else ⟨none, .unknownMethod event.Method⟩

/-- The zero value of `TellstickMQTTBrokerEvent`. -/
def zeroBrokerEvent : TellstickMQTTBrokerEvent :=
  { Protocol := [], DeviceID := 0, House := 0, Unit := 0, Method := [], Level := 0 }

/-- The `encoding/json` library: `json.Unmarshal(payload, &event)` on a zero
event gives the event as the call leaves it and whether it returned an error. -/
abbrev Unmarshal := Str → TellstickMQTTBrokerEvent × Bool

/-- The function `onMessageReceived`: the decode error is printed and the
event is handled when its protocol is `telldusdevice`. -/
def onMessageReceived (cfg : Config) (socketUp : Bool) (unmarshal : Unmarshal)
    (payload : Str) : Option Handled :=
  match unmarshal payload with
  | (event, _err) =>
    if event.Protocol = "telldusdevice".toList then
      some (handleTelldusDeviceIDEvent cfg socketUp event)
    else none

/-- The value of a string of decimal digits. -/
def digitsValue (ds : Str) : Nat :=
  ds.foldl (fun acc c => 10 * acc + (c.toNat - 48)) 0

/-- The Go call `strconv.Atoi(s)` with a 64-bit `int`: an optional sign, then
one or more decimal digits, with a value in the range of `int`. -/
def atoi (s : Str) : Option Int :=
  let (neg, ds) : Bool × Str :=
    match s with
    | '-' :: rest => (true, rest)
    | '+' :: rest => (false, rest)
    | _ => (false, s)
  if ds = [] ∨ ds.all Char.isDigit = false then none
  else
    let v : Int := if neg = true then -(digitsValue ds : Int) else (digitsValue ds : Int)
    if v < -(2 : Int) ^ 63 ∨ (2 : Int) ^ 63 - 1 < v then none else some v

/-- The ways a handler can end without returning. -/
inductive Abort where
  /-- A panic of the goroutine. -/
  | panic (p : Panic)
  /-- The call `log.Fatalf`, which exits the process with status 1. -/
  | fatal
deriving DecidableEq, Repr

/-- The function `onTellstickDeviceMessageReceived`. -/
def onTellstickDeviceMessageReceived (cfg : Config) (socketUp : Bool)
    (topic payload : Str) : Except Abort Handled :=
  let topicElements := stringsSplit '/' topic
  match goIndex topicElements (topicElements.length - 1) with
  | .error p => .error (.panic p)
  | .ok deviceIDString =>
    match atoi deviceIDString with
    | none => .error .fatal
    | some deviceID =>
      let event : TellstickMQTTBrokerEvent :=
        { zeroBrokerEvent with
          DeviceID := deviceID, Method := payload, Protocol := "telldusdevice".toList }
      if event.Method = TellstickDimString then
        let dimLevelString := payload
        match atoi dimLevelString with
        | none => .error .fatal
        | some dimLevel =>
          .ok (handleTelldusDeviceIDEvent cfg socketUp { event with Level := dimLevel })
      else .ok (handleTelldusDeviceIDEvent cfg socketUp event)

/-! ## Reading the event socket and supervising the connection -/

/-- The length of `buf` in `readTelldusRawDeviceEvents`. -/
def bufSize : Nat := 1024

/-- The sentinel looked for in a read buffer. -/
def sentinel : Str := "TDRawDeviceEvent".toList

/-- Lines 69-70: `classBegins := strings.Index(s, "class")` and the slice
`buf[classBegins : n-3]`, where `data` is `buf[0:n]`.  The slice expression
panics unless `0 ≤ classBegins ≤ n-3 ≤ cap(buf)`. -/
def recordBody (data : Str) : Except Panic Str :=
  let n : Int := (data.length : Int)
  let classBegins : Int := stringsIndex "class".toList data
  if 0 ≤ classBegins ∧ classBegins ≤ n - 3 ∧ n - 3 ≤ (bufSize : Int) then
    .ok ((data.drop classBegins.toNat).take ((n - 3).toNat - classBegins.toNat))
  else .error .indexOutOfRange

/-- The body of the loop of `readTelldusRawDeviceEvents` after a successful
read of `data`: the emissions made and the panic, if any. -/
def handleRead (cfg : Config) (render : Renderer) (data : Str) :
    List Emission × Option Panic :=
  if stringsContains data sentinel = true then
    match recordBody data with
    | .error p => ([], some p)
    | .ok str =>
      let r := rawTelldusEvent cfg render str
      (r.emissions, r.panic)
  else ([], none)

/-- How the goroutine `readTelldusRawDeviceEvents` ends. -/
inductive ReaderEnd where
  /-- It sent an error on `errCh` and returned. -/
  | sentError
  /-- It panicked, which terminates the process. -/
  | panicked (p : Panic)
deriving DecidableEq, Repr

/-- The loop of `readTelldusRawDeviceEvents` on an open socket: `reads` are the
buffers of the successful reads, after which `Read` returns an error. -/
def readLoop (cfg : Config) (render : Renderer) : List Str → List Emission × ReaderEnd
  | [] => ([], .sentError)
  | data :: rest =>
    match handleRead cfg render data with
    | (ems, some p) => (ems, .panicked p)
    | (ems, none) =>
      let r := readLoop cfg render rest
      (ems ++ r.1, r.2)

/-- The function `readTelldusRawDeviceEvents`; `none` stands for
`telldusSocket == nil`, on which it sends "socket not available". -/
def readTelldusRawDeviceEvents (cfg : Config) (render : Renderer) :
    Option (List Str) → List Emission × ReaderEnd
  | none => ([], .sentError)
  | some reads => readLoop cfg render reads

/-- What the daemon side does during one iteration of the loop of
`setupTelldus`: whether `net.Dial` succeeds and, if so, the buffers of the
successful reads before the read error. -/
structure Attempt where
  dialOk : Bool
  reads : List Str
deriving DecidableEq, Repr

/-- The observable steps of `setupTelldus`. -/
inductive Action where
  /-- The call `net.Dial`. -/
  | dial
  /-- An emission made by the reader. -/
  | emit (e : Emission)
  /-- The call `time.Sleep`, in seconds. -/
  | sleep (seconds : Nat)
deriving DecidableEq, Repr

/-- The loop of `setupTelldus` against a script of attempts: the steps taken,
and the panic that terminated the process, if any.  With `none` the
supervisor is at the top of its loop, about to dial again. -/
def setupTelldus (cfg : Config) (render : Renderer) : List Attempt → List Action × Option Panic
  | [] => ([], none)
  | a :: rest =>
    match readTelldusRawDeviceEvents cfg render (if a.dialOk = true then some a.reads else none) with
    | (ems, .panicked p) => (.dial :: ems.map .emit, some p)
    | (ems, .sentError) =>
      let r := setupTelldus cfg render rest
      (.dial :: ems.map .emit ++ .sleep 5 :: r.1, r.2)

/-! ## Records, for stating the properties -/

/-- The text of the field `key:value`. -/
def fieldText (f : Str × Str) : Str := f.1 ++ ':' :: f.2

/-- The text of a record: every field followed by `;`, so that the fields are
ended by an empty field. -/
def recordString (fields : List (Str × Str)) : Str :=
  (fields.map (fun f => fieldText f ++ [';'])).flatten

/-- The value of the last field of a record that carries `key`. -/
def lastValue (fields : List (Str × Str)) (key : Str) : Option Str :=
  (fields.reverse.find? (fun f => decide (f.1 = key))).map Prod.snd

/-- The keys recognized by the switch of `rawTelldusEvent`. -/
def recognizedKeys : List Str :=
  ["class".toList, "protocol".toList, "model".toList, "code".toList, "house".toList,
    "unit".toList, "group".toList, "method".toList, "id".toList, "temp".toList,
    "humidity".toList]

/-- The attribute of an event that a recognized key names. -/
def recognizedAttr (key : Str) (event : TelldusEvent) : Option Str :=
  if key = "class".toList then some event.Class
  else if key = "protocol".toList then some event.Protocol
  else if key = "model".toList then some event.Model
  else if key = "code".toList then some event.Code
  else if key = "house".toList then some event.House
  else if key = "unit".toList then some event.Unit
  else if key = "group".toList then some event.Group
  else if key = "method".toList then some event.Method
  else if key = "id".toList then some event.Id
  else if key = "temp".toList then some event.Temp
  else if key = "humidity".toList then some event.Humidity
  else none

/-- The switch of `setField` on a field already split in key and value. -/
def assignField (event : TelldusEvent) (f : Str × Str) : TelldusEvent :=
  if f.1 = "class".toList then { event with Class := f.2 }
  else if f.1 = "protocol".toList then { event with Protocol := f.2 }
  else if f.1 = "model".toList then { event with Model := f.2 }
  else if f.1 = "code".toList then { event with Code := f.2 }
  else if f.1 = "house".toList then { event with House := f.2 }
  else if f.1 = "unit".toList then { event with Unit := f.2 }
  else if f.1 = "group".toList then { event with Group := f.2 }
  else if f.1 = "method".toList then { event with Method := f.2 }
  else if f.1 = "id".toList then { event with Id := f.2 }
  else if f.1 = "temp".toList then { event with Temp := f.2 }
  else if f.1 = "humidity".toList then { event with Humidity := f.2 }
  else event

/-- All publications of a run, in order. -/
def RawRun.published (r : RawRun) : List Publication :=
  r.emissions.flatMap Emission.published

/-! ## Example inputs -/

/-- A configuration with aliases `ON` and `OFF`, split metrics and reverse
mapping enabled. -/
def exampleConfig : Config :=
  { eventsPublishTopic := "telldus/events".toList
    eventsPublishPayload := "event".toList
    sensorsPublishTopic := "telldus/sensors".toList
    sensorsPublishPayload := "sensor".toList
    mapTurnOnTo := "ON".toList
    mapTurnOffTo := "OFF".toList
    splitTemperatureAndHumidity := true
    reverseMappingOnIncoming := true }

/-- The configuration `exampleConfig` with reverse mapping disabled. -/
def forwardOnlyConfig : Config :=
  { exampleConfig with reverseMappingOnIncoming := false }

/-- A configuration whose turn-on alias is the canonical `turnoff`. -/
def chainedConfig : Config :=
  { exampleConfig with mapTurnOnTo := "turnoff".toList }

/-- A configuration whose turn-off alias is the canonical `turnon`. -/
def reverseChainedConfig : Config :=
  { exampleConfig with mapTurnOffTo := "turnon".toList }

/-- A renderer that always succeeds: the template followed by three attributes. -/
def exampleRender : Renderer :=
  fun t e => some (t ++ ' ' :: e.Method ++ ' ' :: e.DataType ++ ' ' :: e.Value)

/-- A renderer for which every template is in error. -/
def failingRender : Renderer := fun _ _ => none

/-- A command record with a duplicate `method` field. -/
def commandFields : List (Str × Str) :=
  [("class".toList, "command".toList), ("method".toList, "turnoff".toList),
    ("id".toList, "7".toList), ("method".toList, "turnon".toList)]

/-- A sensor record. -/
def sensorFields : List (Str × Str) :=
  [("class".toList, "sensor".toList), ("protocol".toList, "fineoffset".toList),
    ("temp".toList, "21.5".toList), ("humidity".toList, "40".toList)]

/-- A command record with method `turnoff`. -/
def turnoffFields : List (Str × Str) :=
  [("class".toList, "command".toList), ("method".toList, "turnoff".toList)]

/-- A read buffer holding one sensor record: sentinel, record body, trailer. -/
def sensorBuffer : Str :=
  "16:TDRawDeviceEvent36:class:sensor;temp:21.5;humidity:40;i1s".toList

/-- A read buffer that ends right after the sentinel. -/
def truncatedBuffer : Str := "16:TDRawDeviceEvent".toList

/-- A script of three attempts: a failed dial, a connection that delivers one
sensor record before its read error, and a connection that fails at once. -/
def exampleScript : List Attempt :=
  [⟨false, []⟩, ⟨true, [sensorBuffer]⟩, ⟨true, []⟩]

/-! ## Splitting -/

theorem stringsSplit_ne_nil (sep : Char) (s : Str) : stringsSplit sep s ≠ [] := by
  induction s with
  | nil => simp [stringsSplit]
  | cons c cs ih =>
    rw [stringsSplit]
    split_ifs
    · simp
    · cases h : stringsSplit sep cs <;> simp

theorem stringsSplit_append_sep (sep : Char) (a b : Str) :
    stringsSplit sep (a ++ sep :: b) = stringsSplit sep a ++ stringsSplit sep b := by
  induction a with
  | nil => simp [stringsSplit]
  | cons c cs ih =>
    rw [List.cons_append, stringsSplit, stringsSplit, ih]
    split_ifs
    · simp
    · cases h : stringsSplit sep cs with
      | nil => exact absurd h (stringsSplit_ne_nil sep cs)
      | cons x xs => simp

theorem stringsSplit_of_not_mem (sep : Char) (s : Str) (h : sep ∉ s) :
    stringsSplit sep s = [s] := by
  induction s with
  | nil => simp [stringsSplit]
  | cons c cs ih =>
    have hc : ¬ c = sep := fun e => h (by simp [e])
    have hcs : sep ∉ cs := fun e => h (by simp [e])
    rw [stringsSplit, ih hcs]
    simp [hc]

theorem stringsSplit_fieldText (f : Str × Str) (h1 : ':' ∉ f.1) (h2 : ':' ∉ f.2) :
    stringsSplit ':' (fieldText f) = [f.1, f.2] := by
  rw [fieldText, stringsSplit_append_sep, stringsSplit_of_not_mem _ _ h1,
    stringsSplit_of_not_mem _ _ h2]
  rfl

theorem stringsSplit_recordString (fields : List (Str × Str))
    (h : ∀ f ∈ fields, ';' ∉ f.1 ∧ ';' ∉ f.2) :
    stringsSplit ';' (recordString fields) = fields.map fieldText ++ [[]] := by
  induction fields with
  | nil => simp [recordString, stringsSplit]
  | cons f fs ih =>
    have hf := h f (by simp)
    have hfs : ∀ g ∈ fs, ';' ∉ g.1 ∧ ';' ∉ g.2 := fun g hg => h g (by simp [hg])
    have hsep : ';' ∉ fieldText f := by
      simp only [fieldText, List.mem_append, List.mem_cons]
      rintro (h1 | h1 | h1)
      · exact hf.1 h1
      · exact absurd h1 (by decide)
      · exact hf.2 h1
    have hrec : recordString (f :: fs) = fieldText f ++ ';' :: recordString fs := by
      simp [recordString]
    rw [hrec, stringsSplit_append_sep, stringsSplit_of_not_mem _ _ hsep, ih hfs]
    simp

/-! ## The loop of `rawTelldusEvent` on a record -/

theorem goIndex_zero {α : Type} (x : α) (xs : List α) : goIndex (x :: xs) 0 = .ok x := rfl

theorem goIndex_one {α : Type} (x y : α) (xs : List α) : goIndex (x :: y :: xs) 1 = .ok y := rfl

theorem assignValue_pair (k v : Str) (rest : List Str) (set : Str → TelldusEvent) :
    assignValue (k :: v :: rest) set = .ok (set v) := rfl

theorem setField_fieldText (event : TelldusEvent) (f : Str × Str)
    (h1 : ':' ∉ f.1) (h2 : ':' ∉ f.2) :
    setField event (fieldText f) = .ok (assignField event f) := by
  unfold setField assignField
  rw [stringsSplit_fieldText f h1 h2]
  simp only [goIndex_zero, assignValue_pair]
  simp only [apply_ite (Except.ok : TelldusEvent → Except Panic TelldusEvent)]

theorem fieldText_length_ne_zero (f : Str × Str) : (fieldText f).length ≠ 0 := by
  simp [fieldText]

theorem rawTelldusEventLoop_fields (cfg : Config) (render : Renderer)
    (fields : List (Str × Str)) (hwf : ∀ f ∈ fields, ':' ∉ f.1 ∧ ':' ∉ f.2)
    (rest : List Str) (event : TelldusEvent) :
    rawTelldusEventLoop cfg render (fields.map fieldText ++ rest) event =
      rawTelldusEventLoop cfg render rest (fields.foldl assignField event) := by
  induction fields generalizing event with
  | nil => rfl
  | cons f fs ih =>
    have hf := hwf f (by simp)
    have hfs : ∀ g ∈ fs, ':' ∉ g.1 ∧ ':' ∉ g.2 := fun g hg => hwf g (by simp [hg])
    rw [List.map_cons, List.cons_append, rawTelldusEventLoop,
      if_pos (fieldText_length_ne_zero f), setField_fieldText event f hf.1 hf.2]
    exact ih hfs (assignField event f)

theorem recognizedAttr_assignField_self (key : Str) (hkey : key ∈ recognizedKeys)
    (event : TelldusEvent) (v : Str) :
    recognizedAttr key (assignField event (key, v)) = some v := by
  simp only [recognizedKeys, List.mem_cons, List.mem_singleton, List.not_mem_nil,
    or_false] at hkey
  rcases hkey with h | h | h | h | h | h | h | h | h | h | h <;> subst h <;> rfl

theorem recognizedAttr_assignField_of_ne (key : Str) (hkey : key ∈ recognizedKeys)
    (event : TelldusEvent) (f : Str × Str) (hne : f.1 ≠ key) :
    recognizedAttr key (assignField event f) = recognizedAttr key event := by
  simp only [recognizedKeys, List.mem_cons, List.mem_singleton, List.not_mem_nil,
    or_false] at hkey
  rcases hkey with h | h | h | h | h | h | h | h | h | h | h <;> subst h
  · show some (assignField event f).Class = some event.Class
    simp only [assignField, apply_ite TelldusEvent.Class, if_neg hne, ite_self]
  · show some (assignField event f).Protocol = some event.Protocol
    simp only [assignField, apply_ite TelldusEvent.Protocol, if_neg hne, ite_self]
  · show some (assignField event f).Model = some event.Model
    simp only [assignField, apply_ite TelldusEvent.Model, if_neg hne, ite_self]
  · show some (assignField event f).Code = some event.Code
    simp only [assignField, apply_ite TelldusEvent.Code, if_neg hne, ite_self]
  · show some (assignField event f).House = some event.House
    simp only [assignField, apply_ite TelldusEvent.House, if_neg hne, ite_self]
  · show some (assignField event f).Unit = some event.Unit
    simp only [assignField, apply_ite TelldusEvent.Unit, if_neg hne, ite_self]
  · show some (assignField event f).Group = some event.Group
    simp only [assignField, apply_ite TelldusEvent.Group, if_neg hne, ite_self]
  · show some (assignField event f).Method = some event.Method
    simp only [assignField, apply_ite TelldusEvent.Method, if_neg hne, ite_self]
  · show some (assignField event f).Id = some event.Id
    simp only [assignField, apply_ite TelldusEvent.Id, if_neg hne, ite_self]
  · show some (assignField event f).Temp = some event.Temp
    simp only [assignField, apply_ite TelldusEvent.Temp, if_neg hne, ite_self]
  · show some (assignField event f).Humidity = some event.Humidity
    simp only [assignField, apply_ite TelldusEvent.Humidity, if_neg hne, ite_self]

theorem recognizedAttr_foldl (key : Str) (hkey : key ∈ recognizedKeys)
    (fields : List (Str × Str)) (event : TelldusEvent) :
    recognizedAttr key (fields.foldl assignField event) =
      match lastValue fields key with
      | some v => some v
      | none => recognizedAttr key event := by
  induction fields generalizing event with
  | nil => rfl
  | cons f fs ih =>
    rw [List.foldl_cons, ih (assignField event f)]
    have hlast : lastValue (f :: fs) key =
        match lastValue fs key with
        | some v => some v
        | none => if f.1 = key then some f.2 else none := by
      simp only [lastValue, List.reverse_cons, List.find?_append]
      cases fs.reverse.find? (fun g => decide (g.1 = key)) with
      | some g => rfl
      | none =>
        by_cases hk : f.1 = key <;> simp [List.find?, hk]
    rw [hlast]
    cases lastValue fs key with
    | some v => rfl
    | none =>
      by_cases hk : f.1 = key
      · have hf : f = (key, f.2) := by rw [← hk]
        simp only [hk, if_true]
        rw [hf]
        exact recognizedAttr_assignField_self key hkey event f.2
      · simp only [hk, if_false]
        exact recognizedAttr_assignField_of_ne key hkey event f hk

theorem emitEvent_handed (cfg : Config) (render : Renderer) (event : TelldusEvent) :
    (emitEvent cfg render event).2.1.handed = event := by
  unfold emitEvent
  rcases mapOutbound cfg event with ⟨t, p, e1⟩
  dsimp only
  cases publishEvent render t p e1 with
  | error q => rfl
  | ok pub1 =>
    dsimp only
    split_ifs
    · cases publishEvent render t p
        { e1 with DataType := "humidity".toList, Value := e1.Humidity } <;> rfl
    · rfl

theorem rawTelldusEventLoop_terminator (cfg : Config) (render : Renderer)
    (event : TelldusEvent) :
    rawTelldusEventLoop cfg render [[]] event =
      ⟨(emitEvent cfg render event).1, [(emitEvent cfg render event).2.1],
        (emitEvent cfg render event).2.2⟩ := by
  rw [rawTelldusEventLoop]
  rcases h : emitEvent cfg render event with ⟨e1, em, _ | q⟩ <;>
    simp [rawTelldusEventLoop, h]

theorem rawTelldusEvent_recordString (cfg : Config) (render : Renderer)
    (fields : List (Str × Str))
    (hwf : ∀ f ∈ fields, (':' ∉ f.1 ∧ ';' ∉ f.1) ∧ (':' ∉ f.2 ∧ ';' ∉ f.2)) :
    rawTelldusEvent cfg render (recordString fields) =
      ⟨(emitEvent cfg render (fields.foldl assignField initialEvent)).1,
        [(emitEvent cfg render (fields.foldl assignField initialEvent)).2.1],
        (emitEvent cfg render (fields.foldl assignField initialEvent)).2.2⟩ := by
  rw [rawTelldusEvent,
    stringsSplit_recordString fields (fun f hf => ⟨(hwf f hf).1.2, (hwf f hf).2.2⟩),
    rawTelldusEventLoop_fields cfg render fields
      (fun f hf => ⟨(hwf f hf).1.1, (hwf f hf).2.1⟩),
    rawTelldusEventLoop_terminator]

theorem publishEvent_ok (render : Renderer) (t p : Str) (event : TelldusEvent)
    (h1 : (render t event).isSome = true) (h2 : (render p event).isSome = true) :
    ∃ a b, publishEvent render t p event = .ok ⟨a, b, event⟩ := by
  obtain ⟨a, ha⟩ := Option.isSome_iff_exists.mp h1
  obtain ⟨b, hb⟩ := Option.isSome_iff_exists.mp h2
  exact ⟨a, b, by simp only [publishEvent, parseTemplate, ha, hb]⟩

/-- The events rendered by one emission when both templates render: the mapped
event, and for class `sensor` with split metrics also the humidity variant. -/
theorem emitEvent_published_events (cfg : Config) (render : Renderer) (event : TelldusEvent)
    (hr : ∀ e, (render (mapOutbound cfg event).1 e).isSome = true ∧
      (render (mapOutbound cfg event).2.1 e).isSome = true) :
    (emitEvent cfg render event).2.1.published.map Publication.event =
      (if cfg.splitTemperatureAndHumidity = true ∧
          (mapOutbound cfg event).2.2.Class = "sensor".toList then
        [(mapOutbound cfg event).2.2,
          { (mapOutbound cfg event).2.2 with
            DataType := "humidity".toList, Value := (mapOutbound cfg event).2.2.Humidity }]
      else [(mapOutbound cfg event).2.2]) ∧
    (emitEvent cfg render event).2.2 = none := by
  unfold emitEvent
  rcases hm : mapOutbound cfg event with ⟨t, p, e1⟩
  rw [hm] at hr
  dsimp only at hr ⊢
  obtain ⟨a, b, h1⟩ := publishEvent_ok render t p e1 (hr e1).1 (hr e1).2
  rw [h1]
  dsimp only
  by_cases hc : cfg.splitTemperatureAndHumidity = true ∧ e1.Class = "sensor".toList
  · obtain ⟨a2, b2, h2⟩ := publishEvent_ok render t p
      { e1 with DataType := "humidity".toList, Value := e1.Humidity }
      (hr _).1 (hr _).2
    rw [if_pos hc, if_pos hc, h2]
    exact ⟨rfl, rfl⟩
  · rw [if_neg hc, if_neg hc]
    exact ⟨rfl, rfl⟩

theorem foldl_assignField_attr (key : Str) (hkey : key ∈ recognizedKeys)
    (fields : List (Str × Str)) (v : Str) (hlast : lastValue fields key = some v) :
    recognizedAttr key (fields.foldl assignField initialEvent) = some v := by
  rw [recognizedAttr_foldl key hkey fields initialEvent, hlast]

theorem foldl_assignField_default (key : Str) (hkey : key ∈ recognizedKeys)
    (fields : List (Str × Str)) (hlast : lastValue fields key = none) :
    recognizedAttr key (fields.foldl assignField initialEvent) =
      recognizedAttr key initialEvent := by
  rw [recognizedAttr_foldl key hkey fields initialEvent, hlast]

theorem foldl_assignField_getD (key : Str) (hkey : key ∈ recognizedKeys)
    (fields : List (Str × Str)) (d : Str) (hd : recognizedAttr key initialEvent = some d) :
    recognizedAttr key (fields.foldl assignField initialEvent) =
      some ((lastValue fields key).getD d) := by
  rw [recognizedAttr_foldl key hkey fields initialEvent]
  cases lastValue fields key with
  | some v => rfl
  | none => exact hd

theorem mapOutbound_sensor (cfg : Config) (event : TelldusEvent)
    (hc : event.Class = "sensor".toList) :
    mapOutbound cfg event =
      (cfg.sensorsPublishTopic, cfg.sensorsPublishPayload,
        { event with Value := event.Temp, DataType := "temp".toList }) := by
  have hne : ¬ event.Class = "command".toList := by rw [hc]; decide
  unfold mapOutbound
  rw [if_neg hne]

theorem mapOutbound_command (cfg : Config) (event : TelldusEvent)
    (hc : event.Class = "command".toList) :
    (mapOutbound cfg event).1 = cfg.eventsPublishTopic ∧
    (mapOutbound cfg event).2.1 = cfg.eventsPublishPayload ∧
    (mapOutbound cfg event).2.2.Class = "command".toList := by
  unfold mapOutbound
  rw [if_pos hc]
  refine ⟨rfl, rfl, ?_⟩
  dsimp only
  rw [apply_ite TelldusEvent.Class, apply_ite TelldusEvent.Class]
  simp only [ite_self]
  exact hc

theorem mapOutbound_turnon (cfg : Config) (event : TelldusEvent)
    (hc : event.Class = "command".toList) (hm : event.Method = "turnon".toList)
    (ha : cfg.mapTurnOnTo ≠ []) :
    (mapOutbound cfg event).2.2.Method =
      if cfg.mapTurnOffTo ≠ [] ∧ cfg.mapTurnOnTo = "turnoff".toList then cfg.mapTurnOffTo
      else cfg.mapTurnOnTo := by
  have h1 : cfg.mapTurnOnTo ≠ [] ∧ event.Method = "turnon".toList := ⟨ha, hm⟩
  unfold mapOutbound
  simp only [if_pos hc, apply_ite TelldusEvent.Method, gt_iff_lt, List.length_pos, if_pos h1]

theorem mapOutbound_turnoff (cfg : Config) (event : TelldusEvent)
    (hc : event.Class = "command".toList) (hm : event.Method = "turnoff".toList)
    (ha : cfg.mapTurnOffTo ≠ []) :
    (mapOutbound cfg event).2.2.Method = cfg.mapTurnOffTo := by
  have h1 : ¬ (cfg.mapTurnOnTo.length > 0 ∧ event.Method = "turnon".toList) := by
    rw [hm]
    exact fun h => absurd h.2 (by decide)
  have h2 : cfg.mapTurnOffTo.length > 0 ∧ event.Method = "turnoff".toList :=
    ⟨List.length_pos.mpr ha, hm⟩
  unfold mapOutbound
  simp only [if_pos hc, if_neg h1, if_pos h2]

theorem published_recordString (cfg : Config) (render : Renderer)
    (fields : List (Str × Str))
    (hwf : ∀ f ∈ fields, (':' ∉ f.1 ∧ ';' ∉ f.1) ∧ (':' ∉ f.2 ∧ ';' ∉ f.2)) :
    (rawTelldusEvent cfg render (recordString fields)).published =
      (emitEvent cfg render (fields.foldl assignField initialEvent)).2.1.published := by
  rw [rawTelldusEvent_recordString cfg render fields hwf]
  simp [RawRun.published]

theorem publishEvent_rendered (render : Renderer) (t p : Str) (event : TelldusEvent)
    (pub : Publication) (h : publishEvent render t p event = .ok pub) :
    pub.event = event ∧ render t pub.event = some pub.topic ∧
      render p pub.event = some pub.payload := by
  unfold publishEvent parseTemplate at h
  cases ht : render t event with
  | none => rw [ht] at h; exact absurd h (by simp)
  | some a =>
    cases hp : render p event with
    | none => rw [ht, hp] at h; exact absurd h (by simp)
    | some b =>
      rw [ht, hp] at h
      have hpub := Except.ok.inj h
      subst hpub
      exact ⟨rfl, ht, hp⟩

/-- Every publication of an emission carries, as topic and payload, the
renderings of the chosen templates on the event recorded with it. -/
theorem emitEvent_published_rendered (cfg : Config) (render : Renderer)
    (event : TelldusEvent) :
    ∀ pub ∈ (emitEvent cfg render event).2.1.published,
      render (mapOutbound cfg event).1 pub.event = some pub.topic ∧
      render (mapOutbound cfg event).2.1 pub.event = some pub.payload := by
  unfold emitEvent
  rcases mapOutbound cfg event with ⟨t, p, e1⟩
  dsimp only
  cases h1 : publishEvent render t p e1 with
  | error q => intro pub hpub; exact absurd hpub (by simp)
  | ok pub1 =>
    have r1 := (publishEvent_rendered render t p e1 pub1 h1).2
    dsimp only
    by_cases hc : cfg.splitTemperatureAndHumidity = true ∧ e1.Class = "sensor".toList
    · rw [if_pos hc]
      cases h2 : publishEvent render t p
          { e1 with DataType := "humidity".toList, Value := e1.Humidity } with
      | error q =>
        intro pub hpub
        have : pub = pub1 := by simpa using hpub
        subst this
        exact r1
      | ok pub2 =>
        have r2 := (publishEvent_rendered render t p _ pub2 h2).2
        intro pub hpub
        have : pub = pub1 ∨ pub = pub2 := by simpa using hpub
        rcases this with e | e <;> subst e
        · exact r1
        · exact r2
    · rw [if_neg hc]
      intro pub hpub
      have : pub = pub1 := by simpa using hpub
      subst this
      exact r1

theorem mem_published_event {pubs : List Publication} {evs : List TelldusEvent}
    (h : pubs.map Publication.event = evs) {pub : Publication} (hp : pub ∈ pubs) :
    pub.event ∈ evs := by
  rw [← h]
  exact List.mem_map_of_mem Publication.event hp

/-! ## Claims about the outbound path -/

/-- C1: for a well-formed record (fields `key:value` whose keys and values hold
neither `:` nor `;`, each followed by `;`), `rawTelldusEvent` makes exactly one
emission, and in the event handed to it the attribute of every recognized key
that occurs in the record equals the value of the last field carrying that key. -/
theorem rawTelldusEvent_last_write_wins (cfg : Config) (render : Renderer)
    (fields : List (Str × Str))
    (hwf : ∀ f ∈ fields, (':' ∉ f.1 ∧ ';' ∉ f.1) ∧ (':' ∉ f.2 ∧ ';' ∉ f.2))
    (key : Str) (hkey : key ∈ recognizedKeys) (v : Str)
    (hlast : lastValue fields key = some v) :
    (rawTelldusEvent cfg render (recordString fields)).emissions.map
      (fun em => recognizedAttr key em.handed) = [some v] := by
  rw [rawTelldusEvent_recordString cfg render fields hwf]
  simp only [List.map_cons, List.map_nil, emitEvent_handed]
  rw [recognizedAttr_foldl key hkey fields initialEvent, hlast]

/-- C3, as amended: for a well-formed record whose class is `sensor`, when the
sensor topic and payload templates render, `rawTelldusEvent` makes exactly two
publications with split metrics enabled, the first rendered with DataType
`temp` and the record's temp as Value, the second with DataType `humidity` and
the record's humidity as Value, and exactly one, with DataType `temp`, when it
is disabled; topic and payload of each are the renderings of the sensor
templates on an event that carries the record's attributes, and the run ends
without a panic. -/
theorem sensor_publications (cfg : Config) (render : Renderer)
    (fields : List (Str × Str))
    (hwf : ∀ f ∈ fields, (':' ∉ f.1 ∧ ';' ∉ f.1) ∧ (':' ∉ f.2 ∧ ';' ∉ f.2))
    (hclass : lastValue fields "class".toList = some "sensor".toList)
    (hr : ∀ e, (render cfg.sensorsPublishTopic e).isSome = true ∧
      (render cfg.sensorsPublishPayload e).isSome = true) :
    (rawTelldusEvent cfg render (recordString fields)).published.map
        (fun p => (p.event.DataType, p.event.Value)) =
      (if cfg.splitTemperatureAndHumidity = true then
        [("temp".toList, (lastValue fields "temp".toList).getD "0".toList),
          ("humidity".toList, (lastValue fields "humidity".toList).getD "0".toList)]
      else [("temp".toList, (lastValue fields "temp".toList).getD "0".toList)]) ∧
    (∀ p ∈ (rawTelldusEvent cfg render (recordString fields)).published,
      render cfg.sensorsPublishTopic p.event = some p.topic ∧
      render cfg.sensorsPublishPayload p.event = some p.payload ∧
      ∀ key ∈ recognizedKeys, ∀ v, lastValue fields key = some v →
        recognizedAttr key p.event = some v) ∧
    (rawTelldusEvent cfg render (recordString fields)).panic = none := by
  have hC : (fields.foldl assignField initialEvent).Class = "sensor".toList :=
    Option.some.inj (foldl_assignField_attr "class".toList (by decide) fields _ hclass)
  have hT : (fields.foldl assignField initialEvent).Temp =
      (lastValue fields "temp".toList).getD "0".toList :=
    Option.some.inj (foldl_assignField_getD "temp".toList (by decide) fields _ rfl)
  have hH : (fields.foldl assignField initialEvent).Humidity =
      (lastValue fields "humidity".toList).getD "0".toList :=
    Option.some.inj (foldl_assignField_getD "humidity".toList (by decide) fields _ rfl)
  have hm := mapOutbound_sensor cfg _ hC
  have hboth := emitEvent_published_events cfg render
    (fields.foldl assignField initialEvent) (by rw [hm]; exact hr)
  have hev := hboth.1
  have hrend := emitEvent_published_rendered cfg render (fields.foldl assignField initialEvent)
  rw [hm] at hev hrend
  dsimp only at hev hrend
  refine ⟨?_, ?_, ?_⟩
  · rw [published_recordString cfg render fields hwf,
      show (fun p : Publication => (p.event.DataType, p.event.Value)) =
        (fun e : TelldusEvent => (e.DataType, e.Value)) ∘ Publication.event from rfl,
      ← List.map_map, hev]
    by_cases hs : cfg.splitTemperatureAndHumidity = true
    · rw [if_pos ⟨hs, hC⟩, if_pos hs]
      simp only [List.map_cons, List.map_nil, hT, hH]
    · rw [if_neg (fun h => hs h.1), if_neg hs]
      simp only [List.map_cons, List.map_nil, hT]
  · intro p hp
    rw [published_recordString cfg render fields hwf] at hp
    refine ⟨(hrend p hp).1, (hrend p hp).2, ?_⟩
    intro key hkey v hv
    have hattr := foldl_assignField_attr key hkey fields v hv
    have hmem := mem_published_event hev hp
    by_cases hs : cfg.splitTemperatureAndHumidity = true ∧
        (fields.foldl assignField initialEvent).Class = "sensor".toList
    · rw [if_pos hs] at hmem
      rcases List.mem_cons.mp hmem with e | hmem2
      · rw [e]
        exact hattr
      · rw [List.mem_singleton.mp hmem2]
        exact hattr
    · rw [if_neg hs] at hmem
      rw [List.mem_singleton.mp hmem]
      exact hattr
  · rw [rawTelldusEvent_recordString cfg render fields hwf]
    exact hboth.2

/-- C4, as amended: for a well-formed record of class `command`, when the event
topic and payload templates render, a raw method `turnon` and a non-empty
turn-on alias give exactly one publication, whose topic and payload are the
renderings of the event templates on an event with the turn-on alias as Method,
except that when this alias is itself `turnoff` and a turn-off alias is
configured the second substitution applies and the Method is the turn-off
alias; a raw method `turnoff` and a non-empty turn-off alias give the turn-off
alias as Method. -/
theorem command_alias_rendered (cfg : Config) (render : Renderer)
    (fields : List (Str × Str))
    (hwf : ∀ f ∈ fields, (':' ∉ f.1 ∧ ';' ∉ f.1) ∧ (':' ∉ f.2 ∧ ';' ∉ f.2))
    (hclass : lastValue fields "class".toList = some "command".toList)
    (hr : ∀ e, (render cfg.eventsPublishTopic e).isSome = true ∧
      (render cfg.eventsPublishPayload e).isSome = true) :
    (lastValue fields "method".toList = some "turnon".toList → cfg.mapTurnOnTo ≠ [] →
      (rawTelldusEvent cfg render (recordString fields)).published.length = 1 ∧
      ∀ p ∈ (rawTelldusEvent cfg render (recordString fields)).published,
        p.event.Method =
          (if cfg.mapTurnOffTo ≠ [] ∧ cfg.mapTurnOnTo = "turnoff".toList then cfg.mapTurnOffTo
            else cfg.mapTurnOnTo) ∧
        render cfg.eventsPublishTopic p.event = some p.topic ∧
        render cfg.eventsPublishPayload p.event = some p.payload) ∧
    (lastValue fields "method".toList = some "turnoff".toList → cfg.mapTurnOffTo ≠ [] →
      (rawTelldusEvent cfg render (recordString fields)).published.length = 1 ∧
      ∀ p ∈ (rawTelldusEvent cfg render (recordString fields)).published,
        p.event.Method = cfg.mapTurnOffTo ∧
        render cfg.eventsPublishTopic p.event = some p.topic ∧
        render cfg.eventsPublishPayload p.event = some p.payload) := by
  have hC : (fields.foldl assignField initialEvent).Class = "command".toList :=
    Option.some.inj (foldl_assignField_attr "class".toList (by decide) fields _ hclass)
  obtain ⟨h1, h2, h3⟩ := mapOutbound_command cfg _ hC
  have hev := (emitEvent_published_events cfg render
    (fields.foldl assignField initialEvent) (by rw [h1, h2]; exact hr)).1
  have hrend := emitEvent_published_rendered cfg render (fields.foldl assignField initialEvent)
  rw [h1, h2] at hrend
  have hns : ¬ (cfg.splitTemperatureAndHumidity = true ∧
      (mapOutbound cfg (fields.foldl assignField initialEvent)).2.2.Class =
        "sensor".toList) := by
    rw [h3]
    exact fun h => absurd h.2 (by decide)
  rw [if_neg hns] at hev
  rw [← published_recordString cfg render fields hwf] at hev hrend
  have hlen : (rawTelldusEvent cfg render (recordString fields)).published.length = 1 := by
    have := congrArg List.length hev
    simpa using this
  have hmeth : ∀ p ∈ (rawTelldusEvent cfg render (recordString fields)).published,
      p.event = (mapOutbound cfg (fields.foldl assignField initialEvent)).2.2 := by
    intro p hp
    exact List.mem_singleton.mp (mem_published_event hev hp)
  constructor
  · intro hmethod ha
    have hM : (fields.foldl assignField initialEvent).Method = "turnon".toList :=
      Option.some.inj (foldl_assignField_attr "method".toList (by decide) fields _ hmethod)
    refine ⟨hlen, fun p hp => ⟨?_, (hrend p hp).1, (hrend p hp).2⟩⟩
    rw [hmeth p hp, mapOutbound_turnon cfg _ hC hM ha]
  · intro hmethod ha
    have hM : (fields.foldl assignField initialEvent).Method = "turnoff".toList :=
      Option.some.inj (foldl_assignField_attr "method".toList (by decide) fields _ hmethod)
    refine ⟨hlen, fun p hp => ⟨?_, (hrend p hp).1, (hrend p hp).2⟩⟩
    rw [hmeth p hp, mapOutbound_turnoff cfg _ hC hM ha]

/-- Witness of C1 on a command record with two `method` fields. -/
theorem rawTelldusEvent_last_write_wins_witness :
    lastValue commandFields "method".toList = some "turnon".toList ∧
    (rawTelldusEvent exampleConfig exampleRender (recordString commandFields)).emissions.map
      (fun em => recognizedAttr "method".toList em.handed) = [some "turnon".toList] :=
  ⟨by decide,
    rawTelldusEvent_last_write_wins exampleConfig exampleRender commandFields (by decide)
      "method".toList (by decide) "turnon".toList (by decide)⟩

/-- Witness of the amended C3 on a sensor record, split metrics enabled: the
two publications with their rendered topic and payload. -/
theorem sensor_publications_witness :
    (rawTelldusEvent exampleConfig exampleRender (recordString sensorFields)).published.map
        (fun p => (p.topic, p.payload)) =
      [("telldus/sensors 0 temp 21.5".toList, "sensor 0 temp 21.5".toList),
        ("telldus/sensors 0 humidity 40".toList, "sensor 0 humidity 40".toList)] ∧
    (rawTelldusEvent exampleConfig exampleRender (recordString sensorFields)).published.map
        (fun p => (p.event.DataType, p.event.Value)) =
      [("temp".toList, "21.5".toList), ("humidity".toList, "40".toList)] :=
  ⟨by decide,
    (sensor_publications exampleConfig exampleRender sensorFields (by decide) (by decide)
      (fun _ => ⟨rfl, rfl⟩)).1⟩

/-- Counterexample to C3 as stated: with templates in error the sensor record
`class:sensor;temp:21.5;humidity:40;` is handed to emission with class
`sensor`, `parseTemplate` panics, and no publication is made. -/
theorem sensor_publications_counterexample :
    (rawTelldusEvent exampleConfig failingRender
        "class:sensor;temp:21.5;humidity:40;".toList).emissions.map
      (fun em => em.handed.Class) = ["sensor".toList] ∧
    (rawTelldusEvent exampleConfig failingRender
        "class:sensor;temp:21.5;humidity:40;".toList).published = [] ∧
    (rawTelldusEvent exampleConfig failingRender
        "class:sensor;temp:21.5;humidity:40;".toList).panic = some .templateError := by
  decide

/-- Witness of the amended C4: alias `ON` for method `turnon`, alias `OFF` for
method `turnoff`, with the rendered topic and payload. -/
theorem command_alias_rendered_witness :
    (rawTelldusEvent exampleConfig exampleRender (recordString commandFields)).published.map
        (fun p => (p.topic, p.payload, p.event.Method)) =
      [("telldus/events ON  0".toList, "event ON  0".toList, "ON".toList)] ∧
    (rawTelldusEvent exampleConfig exampleRender (recordString turnoffFields)).published.map
        (fun p => (p.topic, p.payload, p.event.Method)) =
      [("telldus/events OFF  0".toList, "event OFF  0".toList, "OFF".toList)] ∧
    (rawTelldusEvent exampleConfig exampleRender
        (recordString commandFields)).published.length = 1 ∧
    (rawTelldusEvent exampleConfig exampleRender
        (recordString turnoffFields)).published.length = 1 :=
  ⟨by decide, by decide,
    ((command_alias_rendered exampleConfig exampleRender commandFields (by decide) (by decide)
      (fun _ => ⟨rfl, rfl⟩)).1 (by decide) (by decide)).1,
    ((command_alias_rendered exampleConfig exampleRender turnoffFields (by decide) (by decide)
      (fun _ => ⟨rfl, rfl⟩)).2 (by decide) (by decide)).1⟩

/-- Counterexample to C4 as stated: with the non-empty turn-on alias `turnoff`
and the turn-off alias `OFF`, a command record with raw method `turnon` is
rendered with Method `OFF`, not with the turn-on alias. -/
theorem command_alias_counterexample :
    chainedConfig.mapTurnOnTo = "turnoff".toList ∧
    (rawTelldusEvent chainedConfig exampleRender
        "class:command;method:turnon;".toList).emissions.map
      (fun em => (em.handed.Class, em.handed.Method)) =
        [("command".toList, "turnon".toList)] ∧
    (rawTelldusEvent chainedConfig exampleRender
        "class:command;method:turnon;".toList).published.map
      (fun p => p.event.Method) = ["OFF".toList] := by
  decide

/-- C2, at the failing input: a record whose first field is the bare key
`class` makes `rawTelldusEvent` index `propval[1]` out of range; the run
panics before any emission. -/
theorem rawTelldusEvent_bare_key_panics (cfg : Config) (render : Renderer) :
    rawTelldusEvent cfg render "class;".toList =
      ⟨initialEvent, [], some Panic.indexOutOfRange⟩ := by
  rfl

theorem stringsSplit_of_mem (sep : Char) (s : Str) (h : sep ∈ s) :
    ∃ k v rest, stringsSplit sep s = k :: v :: rest := by
  induction s with
  | nil => exact absurd h (by simp)
  | cons c cs ih =>
    rw [stringsSplit]
    by_cases hc : c = sep
    · rw [if_pos hc]
      cases hs : stringsSplit sep cs with
      | nil => exact absurd hs (stringsSplit_ne_nil sep cs)
      | cons x xs => exact ⟨[], x, xs, rfl⟩
    · rw [if_neg hc]
      have hmem : sep ∈ cs := by
        rcases List.mem_cons.mp h with h1 | h1
        · exact absurd h1.symm hc
        · exact h1
      obtain ⟨k, v, rest, hk⟩ := ih hmem
      rw [hk]
      exact ⟨c :: k, v, rest, rfl⟩

/-- The part of C2 that holds: a field that contains a colon never makes
`setField` panic, however many colons it has. -/
theorem setField_ok_of_colon (event : TelldusEvent) (elm : Str) (h : ':' ∈ elm) :
    ∃ e, setField event elm = .ok e := by
  obtain ⟨k, v, rest, hk⟩ := stringsSplit_of_mem ':' elm h
  refine ⟨assignField event (k, v), ?_⟩
  unfold setField assignField
  rw [hk]
  simp only [goIndex_zero, assignValue_pair]
  simp only [apply_ite (Except.ok : TelldusEvent → Except Panic TelldusEvent)]

/-- An instance of `setField_ok_of_colon`: in `temp:1:2` the value is the text
between the first and the second colon. -/
theorem setField_ok_of_colon_witness :
    setField initialEvent "temp:1:2".toList = .ok { initialEvent with Temp := "1".toList } ∧
    ∃ e, setField initialEvent "temp:1:2".toList = .ok e :=
  ⟨rfl, setField_ok_of_colon initialEvent "temp:1:2".toList (by decide)⟩

/-! ## State of the parser across terminators -/

theorem rawTelldusEventLoop_cons_field (cfg : Config) (render : Renderer)
    (elm : Str) (rest : List Str) (event e1 : TelldusEvent)
    (hlen : elm.length ≠ 0) (hs : setField event elm = .ok e1) :
    rawTelldusEventLoop cfg render (elm :: rest) event =
      rawTelldusEventLoop cfg render rest e1 := by
  rw [rawTelldusEventLoop, if_pos hlen, hs]

theorem rawTelldusEventLoop_cons_field_error (cfg : Config) (render : Renderer)
    (elm : Str) (rest : List Str) (event : TelldusEvent) (p : Panic)
    (hlen : elm.length ≠ 0) (hs : setField event elm = .error p) :
    rawTelldusEventLoop cfg render (elm :: rest) event = ⟨event, [], some p⟩ := by
  rw [rawTelldusEventLoop, if_pos hlen, hs]

theorem rawTelldusEventLoop_cons_emit (cfg : Config) (render : Renderer)
    (elm : Str) (rest : List Str) (event e1 : TelldusEvent) (em : Emission)
    (hlen : ¬ elm.length ≠ 0) (he : emitEvent cfg render event = (e1, em, none)) :
    rawTelldusEventLoop cfg render (elm :: rest) event =
      ⟨(rawTelldusEventLoop cfg render rest e1).event,
        em :: (rawTelldusEventLoop cfg render rest e1).emissions,
        (rawTelldusEventLoop cfg render rest e1).panic⟩ := by
  rw [rawTelldusEventLoop, if_neg hlen, he]

theorem rawTelldusEventLoop_cons_emit_panic (cfg : Config) (render : Renderer)
    (elm : Str) (rest : List Str) (event e1 : TelldusEvent) (em : Emission) (p : Panic)
    (hlen : ¬ elm.length ≠ 0) (he : emitEvent cfg render event = (e1, em, some p)) :
    rawTelldusEventLoop cfg render (elm :: rest) event = ⟨e1, [em], some p⟩ := by
  rw [rawTelldusEventLoop, if_neg hlen, he]

theorem rawTelldusEventLoop_append (cfg : Config) (render : Renderer)
    (d1 d2 : List Str) (event : TelldusEvent)
    (h : (rawTelldusEventLoop cfg render d1 event).panic = none) :
    rawTelldusEventLoop cfg render (d1 ++ d2) event =
      ⟨(rawTelldusEventLoop cfg render d2
          (rawTelldusEventLoop cfg render d1 event).event).event,
        (rawTelldusEventLoop cfg render d1 event).emissions ++
          (rawTelldusEventLoop cfg render d2
            (rawTelldusEventLoop cfg render d1 event).event).emissions,
        (rawTelldusEventLoop cfg render d2
          (rawTelldusEventLoop cfg render d1 event).event).panic⟩ := by
  induction d1 generalizing event with
  | nil => rfl
  | cons elm rest ih =>
    rw [List.cons_append]
    by_cases hlen : elm.length ≠ 0
    · cases hs : setField event elm with
      | error p =>
        rw [rawTelldusEventLoop_cons_field_error cfg render elm rest event p hlen hs] at h
        exact absurd h (by simp)
      | ok e1 =>
        rw [rawTelldusEventLoop_cons_field cfg render elm rest event e1 hlen hs] at h ⊢
        rw [rawTelldusEventLoop_cons_field cfg render elm (rest ++ d2) event e1 hlen hs]
        exact ih e1 h
    · rcases he : emitEvent cfg render event with ⟨e1, em, _ | p⟩
      · rw [rawTelldusEventLoop_cons_emit cfg render elm rest event e1 em hlen he] at h ⊢
        rw [rawTelldusEventLoop_cons_emit cfg render elm (rest ++ d2) event e1 em hlen he]
        dsimp only at h ⊢
        rw [ih e1 h]
        rfl
      · rw [rawTelldusEventLoop_cons_emit_panic cfg render elm rest event e1 em p hlen he] at h
        exact absurd h (by simp)

/-- Composition of runs: for an input `s1;s2` whose part `s1` is processed
without a panic, the emissions are those of `s1` followed by those of the loop
run on the fields of `s2` from the event as the processing of `s1` left it. -/
theorem rawTelldusEvent_append_run (cfg : Config) (render : Renderer)
    (s1 s2 : Str) (h : (rawTelldusEvent cfg render s1).panic = none) :
    rawTelldusEvent cfg render (s1 ++ ';' :: s2) =
      ⟨(rawTelldusEventLoop cfg render (stringsSplit ';' s2)
          (rawTelldusEvent cfg render s1).event).event,
        (rawTelldusEvent cfg render s1).emissions ++
          (rawTelldusEventLoop cfg render (stringsSplit ';' s2)
            (rawTelldusEvent cfg render s1).event).emissions,
        (rawTelldusEventLoop cfg render (stringsSplit ';' s2)
          (rawTelldusEvent cfg render s1).event).panic⟩ := by
  unfold rawTelldusEvent at h ⊢
  rw [stringsSplit_append_sep]
  exact rawTelldusEventLoop_append cfg render _ _ initialEvent h

theorem rawTelldusEventLoop_recordString (cfg : Config) (render : Renderer)
    (fields : List (Str × Str))
    (hwf : ∀ f ∈ fields, (':' ∉ f.1 ∧ ';' ∉ f.1) ∧ (':' ∉ f.2 ∧ ';' ∉ f.2))
    (event : TelldusEvent) :
    rawTelldusEventLoop cfg render (stringsSplit ';' (recordString fields)) event =
      ⟨(emitEvent cfg render (fields.foldl assignField event)).1,
        [(emitEvent cfg render (fields.foldl assignField event)).2.1],
        (emitEvent cfg render (fields.foldl assignField event)).2.2⟩ := by
  rw [stringsSplit_recordString fields (fun f hf => ⟨(hwf f hf).1.2, (hwf f hf).2.2⟩),
    rawTelldusEventLoop_fields cfg render fields
      (fun f hf => ⟨(hwf f hf).1.1, (hwf f hf).2.1⟩),
    rawTelldusEventLoop_terminator]

theorem assignField_derived (event : TelldusEvent) (f : Str × Str) :
    (assignField event f).Value = event.Value ∧
      (assignField event f).DataType = event.DataType := by
  constructor
  · simp only [assignField, apply_ite TelldusEvent.Value, ite_self]
  · simp only [assignField, apply_ite TelldusEvent.DataType, ite_self]

theorem foldl_assignField_derived (fields : List (Str × Str)) (event : TelldusEvent) :
    (fields.foldl assignField event).Value = event.Value ∧
      (fields.foldl assignField event).DataType = event.DataType := by
  induction fields generalizing event with
  | nil => exact ⟨rfl, rfl⟩
  | cons f fs ih =>
    rw [List.foldl_cons]
    exact ⟨(ih _).1.trans (assignField_derived event f).1,
      (ih _).2.trans (assignField_derived event f).2⟩

/-- After an emission that did not panic, the event of the loop is the event
of the last publication made. -/
theorem emitEvent_last_published (cfg : Config) (render : Renderer) (event : TelldusEvent)
    (h : (emitEvent cfg render event).2.2 = none) :
    ∃ p, (emitEvent cfg render event).2.1.published.getLast? = some p ∧
      p.event = (emitEvent cfg render event).1 := by
  unfold emitEvent at h ⊢
  revert h
  rcases mapOutbound cfg event with ⟨t, p, e1⟩
  dsimp only
  cases h1 : publishEvent render t p e1 with
  | error q => intro h; exact absurd h (by simp)
  | ok pub1 =>
    have r1 := (publishEvent_rendered render t p e1 pub1 h1).1
    dsimp only
    by_cases hc : cfg.splitTemperatureAndHumidity = true ∧ e1.Class = "sensor".toList
    · rw [if_pos hc]
      cases h2 : publishEvent render t p
          { e1 with DataType := "humidity".toList, Value := e1.Humidity } with
      | error q => intro h; exact absurd h (by simp)
      | ok pub2 =>
        intro _
        exact ⟨pub2, rfl, (publishEvent_rendered render t p _ pub2 h2).1⟩
    · rw [if_neg hc]
      intro _
      exact ⟨pub1, rfl, r1⟩

/-- C6, as amended: within one call of `rawTelldusEvent` the event is not reset
at a terminator.  For two well-formed records in one input, the first
processed without a panic, there are two emissions; the first is that of the
first record alone, and the event handed to the second has, for every
recognized key, the last value the second record gives it and otherwise the
value in the event last published by the first emission (with its aliased
method), and the Value and DataType of that published event. -/
theorem second_emission_not_reset (cfg : Config) (render : Renderer)
    (f1 f2 : List (Str × Str))
    (hwf1 : ∀ f ∈ f1, (':' ∉ f.1 ∧ ';' ∉ f.1) ∧ (':' ∉ f.2 ∧ ';' ∉ f.2))
    (hwf2 : ∀ f ∈ f2, (':' ∉ f.1 ∧ ';' ∉ f.1) ∧ (':' ∉ f.2 ∧ ';' ∉ f.2))
    (hp : (rawTelldusEvent cfg render (recordString f1)).panic = none) :
    ∃ em1 em2 p1,
      (rawTelldusEvent cfg render (recordString f1)).emissions = [em1] ∧
      (rawTelldusEvent cfg render (recordString f1 ++ ';' :: recordString f2)).emissions =
        [em1, em2] ∧
      em1.published.getLast? = some p1 ∧
      (∀ key ∈ recognizedKeys,
        recognizedAttr key em2.handed =
          match lastValue f2 key with
          | some v => some v
          | none => recognizedAttr key p1.event) ∧
      em2.handed.Value = p1.event.Value ∧
      em2.handed.DataType = p1.event.DataType := by
  have hrun := rawTelldusEvent_append_run cfg render (recordString f1) (recordString f2) hp
  have h1 := rawTelldusEvent_recordString cfg render f1 hwf1
  rw [h1] at hp
  dsimp only at hp
  obtain ⟨p1, hlast, hp1⟩ :=
    emitEvent_last_published cfg render (f1.foldl assignField initialEvent) hp
  refine ⟨(emitEvent cfg render (f1.foldl assignField initialEvent)).2.1,
    (emitEvent cfg render (f2.foldl assignField
      (emitEvent cfg render (f1.foldl assignField initialEvent)).1)).2.1, p1, ?_, ?_, hlast, ?_, ?_, ?_⟩
  · rw [h1]
  · rw [hrun, h1]
    dsimp only
    rw [rawTelldusEventLoop_recordString cfg render f2 hwf2]
    rfl
  · intro key hkey
    rw [emitEvent_handed, recognizedAttr_foldl key hkey f2, hp1]
  · rw [emitEvent_handed, (foldl_assignField_derived f2 _).1, hp1]
  · rw [emitEvent_handed, (foldl_assignField_derived f2 _).2, hp1]

/-- Witness of the amended C6: after the record `class:command;method:turnon;`
the record `id:7;` is handed to emission with the aliased method `ON` still in
place. -/
theorem second_emission_not_reset_witness :
    (rawTelldusEvent exampleConfig exampleRender
        (recordString commandFields ++ ';' :: recordString [("id".toList, "9".toList)])
      ).emissions.map (fun em => (em.handed.Class, em.handed.Method, em.handed.Id)) =
        [("command".toList, "turnon".toList, "7".toList),
          ("command".toList, "ON".toList, "9".toList)] ∧
    ∃ em1 em2 p1,
      (rawTelldusEvent exampleConfig exampleRender (recordString commandFields)).emissions =
        [em1] ∧
      (rawTelldusEvent exampleConfig exampleRender
        (recordString commandFields ++ ';' :: recordString [("id".toList, "9".toList)])
        ).emissions = [em1, em2] ∧
      em1.published.getLast? = some p1 ∧
      (∀ key ∈ recognizedKeys,
        recognizedAttr key em2.handed =
          match lastValue [("id".toList, "9".toList)] key with
          | some v => some v
          | none => recognizedAttr key p1.event) ∧
      em2.handed.Value = p1.event.Value ∧
      em2.handed.DataType = p1.event.DataType :=
  ⟨by decide,
    second_emission_not_reset exampleConfig exampleRender commandFields
      [("id".toList, "9".toList)] (by decide) (by decide) (by decide)⟩

/-- Counterexample to C6 as stated: on `temp:5;;humidity:7;` the event emitted
at the second terminator still holds the temp `5` of the first record and the
derived Value and DataType of the first emission, whereas the fields after the
first terminator applied to default values give temp `0` and no DataType. -/
theorem parser_reset_counterexample :
    (rawTelldusEvent exampleConfig exampleRender "temp:5;;humidity:7;".toList).emissions.map
      (fun em => (em.handed.Temp, em.handed.Humidity, em.handed.Value, em.handed.DataType)) =
        [("5".toList, "0".toList, "0".toList, []),
          ("5".toList, "7".toList, "5".toList, "temp".toList)] ∧
    (rawTelldusEvent exampleConfig exampleRender "humidity:7;".toList).emissions.map
      (fun em => (em.handed.Temp, em.handed.Humidity, em.handed.Value, em.handed.DataType)) =
        [("0".toList, "7".toList, "0".toList, [])] := by
  decide

/-! ## Claims about the inbound path -/

theorem reverseMap_turnOn (cfg : Config) (event : TellstickMQTTBrokerEvent)
    (hrev : cfg.reverseMappingOnIncoming = true) (ha : cfg.mapTurnOnTo ≠ [])
    (hm : event.Method = cfg.mapTurnOnTo) :
    reverseMap cfg event =
      if cfg.mapTurnOffTo = "turnon".toList then { event with Method := "turnoff".toList }
      else { event with Method := "turnon".toList } := by
  have h1 : cfg.mapTurnOnTo ≠ [] ∧ event.Method = cfg.mapTurnOnTo := ⟨ha, hm⟩
  unfold reverseMap
  simp only [if_pos hrev, gt_iff_lt, List.length_pos, if_pos h1]
  by_cases hoff : cfg.mapTurnOffTo = "turnon".toList
  · have h2 : cfg.mapTurnOffTo ≠ [] ∧ "turnon".toList = cfg.mapTurnOffTo := by
      rw [hoff]
      exact ⟨by decide, rfl⟩
    rw [if_pos h2, if_pos hoff]
  · have h2 : ¬ (cfg.mapTurnOffTo ≠ [] ∧ "turnon".toList = cfg.mapTurnOffTo) :=
      fun h => hoff h.2.symm
    rw [if_neg h2, if_neg hoff]

theorem reverseMap_disabled (cfg : Config) (event : TellstickMQTTBrokerEvent)
    (hrev : cfg.reverseMappingOnIncoming = false) : reverseMap cfg event = event := by
  unfold reverseMap
  rw [if_neg (by rw [hrev]; decide)]

/-- C5, as amended: with reverse mapping enabled and a non-empty turn-on alias,
an inbound command whose method equals the alias is handled by the turn-on
case, which sends `tdTurnOn` for the device when the event socket is up and
only logs otherwise, unless the turn-off alias is the canonical `turnon`, in
which case the second substitution makes it a turn-off; with reverse mapping
disabled a method that is none of turnoff, turnon, learn, dim is logged as
unknown and nothing is sent. -/
theorem reverse_mapping_dispatch (cfg : Config) (socketUp : Bool)
    (event : TellstickMQTTBrokerEvent)
    (ha : cfg.mapTurnOnTo ≠ []) (hm : event.Method = cfg.mapTurnOnTo) :
    (cfg.reverseMappingOnIncoming = true → cfg.mapTurnOffTo ≠ "turnon".toList →
      handleTelldusDeviceIDEvent cfg socketUp event =
        ⟨if socketUp = true then some (.message "tdTurnOn".toList event.DeviceID) else none,
          .turnOn⟩) ∧
    (cfg.reverseMappingOnIncoming = true → cfg.mapTurnOffTo = "turnon".toList →
      handleTelldusDeviceIDEvent cfg socketUp event =
        ⟨if socketUp = true then some (.message "tdTurnOff".toList event.DeviceID) else none,
          .turnOff⟩) ∧
    (cfg.reverseMappingOnIncoming = false →
      event.Method ∉ [TellstickTurnoffString, TellstickTurnonString, TellstickLearnString,
        TellstickDimString] →
      handleTelldusDeviceIDEvent cfg socketUp event = ⟨none, .unknownMethod event.Method⟩) := by
  refine ⟨fun hrev hoff => ?_, fun hrev hoff => ?_, fun hrev hcanon => ?_⟩
  · unfold handleTelldusDeviceIDEvent
    rw [reverseMap_turnOn cfg event hrev ha hm, if_neg hoff]
    rfl
  · unfold handleTelldusDeviceIDEvent
    rw [reverseMap_turnOn cfg event hrev ha hm, if_pos hoff]
    rfl
  · simp only [List.mem_cons, List.mem_singleton, List.not_mem_nil, or_false, not_or] at hcanon
    unfold handleTelldusDeviceIDEvent
    rw [reverseMap_disabled cfg event hrev]
    simp only [if_neg hcanon.1, if_neg hcanon.2.1, if_neg hcanon.2.2.1, if_neg hcanon.2.2.2]

/-- Witness of the amended C5: alias `ON`, method `ON`, device 3. -/
theorem reverse_mapping_dispatch_witness :
    handleTelldusDeviceIDEvent exampleConfig true
        { zeroBrokerEvent with DeviceID := 3, Method := "ON".toList } =
      ⟨some (.message "tdTurnOn".toList 3), .turnOn⟩ ∧
    handleTelldusDeviceIDEvent forwardOnlyConfig true
        { zeroBrokerEvent with DeviceID := 3, Method := "ON".toList } =
      ⟨none, .unknownMethod "ON".toList⟩ :=
  ⟨(reverse_mapping_dispatch exampleConfig true
      { zeroBrokerEvent with DeviceID := 3, Method := "ON".toList }
      (by decide) rfl).1 rfl (by decide),
    (reverse_mapping_dispatch forwardOnlyConfig true
      { zeroBrokerEvent with DeviceID := 3, Method := "ON".toList }
      (by decide) rfl).2.2 rfl (by decide)⟩

/-- Counterexample to C5 as stated: with reverse mapping enabled, turn-on alias
`ON` and turn-off alias `turnon`, the inbound method `ON` is sent to the daemon
as `tdTurnOff`, not as the canonical turn-on command. -/
theorem reverse_mapping_counterexample :
    reverseChainedConfig.reverseMappingOnIncoming = true ∧
    reverseChainedConfig.mapTurnOnTo = "ON".toList ∧
    handleTelldusDeviceIDEvent reverseChainedConfig true
        { zeroBrokerEvent with DeviceID := 3, Method := "ON".toList } =
      ⟨some (.message "tdTurnOff".toList 3), .turnOff⟩ := by
  decide

/-- C7, at the failing input: on the per-device topic `telldus/devices/42` the
payload `5` becomes the method of the event, the level stays 0, and the event
is logged as an unknown method; no dim command is sent. -/
theorem perDevice_level_payload_unknown :
    onTellstickDeviceMessageReceived exampleConfig true
        "telldus/devices/42".toList "5".toList =
      .ok ⟨none, .unknownMethod "5".toList⟩ := by
  rfl

/-- C8, at the failing inputs: a non-numeric device id in the topic, and the
payload `dim` (whose level is then parsed from the text `dim`), both end in
`log.Fatalf`, which exits the process. -/
theorem perDevice_malformed_is_fatal (cfg : Config) (socketUp : Bool) :
    onTellstickDeviceMessageReceived cfg socketUp
        "telldus/devices/abc".toList "turnon".toList = .error .fatal ∧
    onTellstickDeviceMessageReceived cfg socketUp
        "telldus/devices/42".toList "dim".toList = .error .fatal :=
  ⟨rfl, rfl⟩

/-- The decode error of `onMessageReceived` has no effect on what is
dispatched: an event that `json.Unmarshal` leaves with protocol
`telldusdevice` is handled whether or not an error was returned. -/
theorem onMessageReceived_ignores_decode_error (cfg : Config) (socketUp : Bool)
    (unmarshal : Unmarshal) (payload : Str) :
    onMessageReceived cfg socketUp unmarshal payload =
      onMessageReceived cfg socketUp (fun s => ((unmarshal s).1, false)) payload := by
  rfl

theorem handle_logged_dim (cfg : Config) (socketUp : Bool)
    (event : TellstickMQTTBrokerEvent)
    (h : (handleTelldusDeviceIDEvent cfg socketUp event).logged = .dim) :
    (reverseMap cfg event).Method = TellstickDimString := by
  unfold handleTelldusDeviceIDEvent at h
  by_cases h1 : (reverseMap cfg event).Method = TellstickTurnoffString
  · rw [if_pos h1] at h
    exact absurd h (by simp)
  · rw [if_neg h1] at h
    by_cases h2 : (reverseMap cfg event).Method = TellstickTurnonString
    · rw [if_pos h2] at h
      exact absurd h (by simp)
    · rw [if_neg h2] at h
      by_cases h3 : (reverseMap cfg event).Method = TellstickLearnString
      · rw [if_pos h3] at h
        exact absurd h (by simp)
      · rw [if_neg h3] at h
        by_cases h4 : (reverseMap cfg event).Method = TellstickDimString
        · exact h4
        · rw [if_neg h4] at h
          exact absurd h (by simp)

theorem reverseMap_method (cfg : Config) (event : TellstickMQTTBrokerEvent) :
    (reverseMap cfg event).Method = event.Method ∨
    (reverseMap cfg event).Method = "turnon".toList ∨
    (reverseMap cfg event).Method = "turnoff".toList := by
  unfold reverseMap
  by_cases hrev : cfg.reverseMappingOnIncoming = true
  · rw [if_pos hrev]
    dsimp only
    by_cases h1 : cfg.mapTurnOnTo.length > 0 ∧ event.Method = cfg.mapTurnOnTo
    · simp only [if_pos h1]
      by_cases h2 : cfg.mapTurnOffTo.length > 0 ∧ "turnon".toList = cfg.mapTurnOffTo
      · rw [if_pos h2]
        exact Or.inr (Or.inr rfl)
      · rw [if_neg h2]
        exact Or.inr (Or.inl rfl)
    · simp only [if_neg h1]
      by_cases h2 : cfg.mapTurnOffTo.length > 0 ∧ event.Method = cfg.mapTurnOffTo
      · rw [if_pos h2]
        exact Or.inr (Or.inr rfl)
      · rw [if_neg h2]
        exact Or.inl rfl
  · rw [if_neg hrev]
    exact Or.inl rfl

/-- The per-device handler never reaches the dim case: the only payload that
selects it is `dim`, and that payload fails to parse as a level. -/
theorem perDevice_never_dims (cfg : Config) (socketUp : Bool) (topic payload : Str)
    (h : Handled)
    (hok : onTellstickDeviceMessageReceived cfg socketUp topic payload = .ok h) :
    h.logged ≠ .dim := by
  unfold onTellstickDeviceMessageReceived at hok
  dsimp only at hok
  cases hidx : goIndex (stringsSplit '/' topic) ((stringsSplit '/' topic).length - 1) with
  | error p => rw [hidx] at hok; exact absurd hok (by simp)
  | ok deviceIDString =>
    rw [hidx] at hok
    dsimp only at hok
    cases hid : atoi deviceIDString with
    | none => rw [hid] at hok; exact absurd hok (by simp)
    | some deviceID =>
      rw [hid] at hok
      dsimp only at hok
      by_cases hd : payload = TellstickDimString
      · rw [if_pos hd] at hok
        have hnone : atoi payload = none := by rw [hd]; rfl
        rw [hnone] at hok
        exact absurd hok (by simp)
      · rw [if_neg hd] at hok
        have hh := Except.ok.inj hok
        intro hdim
        rw [← hh] at hdim
        have hm := handle_logged_dim cfg socketUp _ hdim
        rcases reverseMap_method cfg
          { zeroBrokerEvent with
            DeviceID := deviceID, Method := payload,
            Protocol := "telldusdevice".toList } with h1 | h1 | h1
        · rw [h1] at hm
          exact hd hm
        · rw [h1] at hm
          exact absurd hm (by decide)
        · rw [h1] at hm
          exact absurd hm (by decide)

/-- An instance of `perDevice_never_dims`: payload `turnon` on device 42. -/
theorem perDevice_never_dims_witness :
    onTellstickDeviceMessageReceived exampleConfig true
        "telldus/devices/42".toList "turnon".toList =
      .ok ⟨some (.message "tdTurnOn".toList 42), .turnOn⟩ ∧
    LogLine.turnOn ≠ LogLine.dim :=
  ⟨rfl, perDevice_never_dims exampleConfig true "telldus/devices/42".toList "turnon".toList
    ⟨some (.message "tdTurnOn".toList 42), .turnOn⟩ rfl⟩

/-! ## Claims about reading and supervision -/

theorem stringsIndex_bound (substr s : Str) (h : 0 ≤ stringsIndex substr s) :
    (stringsIndex substr s).toNat + substr.length ≤ s.length := by
  induction s with
  | nil =>
    unfold stringsIndex at h ⊢
    by_cases hs : substr = []
    · simp [hs]
    · rw [if_neg hs] at h
      exact absurd h (by decide)
  | cons c cs ih =>
    unfold stringsIndex at h ⊢
    by_cases hp : substr.isPrefixOf (c :: cs) = true
    · rw [if_pos hp]
      have := (List.isPrefixOf_iff_prefix.mp hp).length_le
      simpa using this
    · rw [if_neg hp] at h ⊢
      dsimp only at h ⊢
      by_cases hi : stringsIndex substr cs < 0
      · rw [if_pos hi] at h
        exact absurd h (by decide)
      · rw [if_neg hi]
        have h0 : 0 ≤ stringsIndex substr cs := not_lt.mp hi
        have := ih h0
        have e : (stringsIndex substr cs + 1).toNat = (stringsIndex substr cs).toNat + 1 := by
          omega
        rw [e, List.length_cons]
        omega

/-- The part of C9 that holds: when `class` occurs in a buffer of at most
1024 bytes, the slice is defined and is the bytes from the first `class` up to,
excluding, the last three. -/
theorem recordBody_of_class (data : Str) (hlen : data.length ≤ bufSize)
    (hclass : 0 ≤ stringsIndex "class".toList data) :
    recordBody data =
      .ok ((data.drop (stringsIndex "class".toList data).toNat).take
        (data.length - 3 - (stringsIndex "class".toList data).toNat)) := by
  have hb := stringsIndex_bound "class".toList data hclass
  have h5 : ("class".toList).length = 5 := rfl
  rw [h5] at hb
  have hcond : 0 ≤ stringsIndex "class".toList data ∧
      stringsIndex "class".toList data ≤ (data.length : Int) - 3 ∧
      (data.length : Int) - 3 ≤ (bufSize : Int) := by
    refine ⟨hclass, ?_, ?_⟩ <;> omega
  unfold recordBody
  dsimp only
  rw [if_pos hcond]
  have e : ((data.length : Int) - 3).toNat = data.length - 3 := by omega
  rw [e]

/-- Witness of `recordBody_of_class` on a buffer holding a sensor record. -/
theorem recordBody_of_class_witness :
    recordBody sensorBuffer = .ok "class:sensor;temp:21.5;humidity:40;".toList :=
  (recordBody_of_class sensorBuffer (by decide) (by decide)).trans rfl

/-- C9, at the failing input: a read buffer that holds the sentinel and no
`class` gives `classBegins = -1`, the slice expression panics, and so does the
reader. -/
theorem recordBody_without_class_panics :
    stringsContains truncatedBuffer sentinel = true ∧
    truncatedBuffer.length ≤ bufSize ∧
    stringsIndex "class".toList truncatedBuffer = -1 ∧
    recordBody truncatedBuffer = .error .indexOutOfRange ∧
    ∀ (cfg : Config) (render : Renderer),
      handleRead cfg render truncatedBuffer = ([], some .indexOutOfRange) :=
  ⟨by decide, by decide, by decide, rfl, fun _ _ => rfl⟩

theorem readLoop_sentError (cfg : Config) (render : Renderer) (reads : List Str)
    (h : ∀ data ∈ reads, (handleRead cfg render data).2 = none) :
    (readLoop cfg render reads).2 = .sentError := by
  induction reads with
  | nil => rfl
  | cons data rest ih =>
    have hd := h data (by simp)
    have hr : ∀ d ∈ rest, (handleRead cfg render d).2 = none :=
      fun d hd => h d (by simp [hd])
    rcases hh : handleRead cfg render data with ⟨ems, _ | p⟩
    · rw [readLoop, hh]
      exact ih hr
    · rw [hh] at hd
      exact absurd hd (by simp)

theorem readTelldusRawDeviceEvents_sentError (cfg : Config) (render : Renderer)
    (a : Attempt)
    (h : a.dialOk = true → ∀ data ∈ a.reads, (handleRead cfg render data).2 = none) :
    (readTelldusRawDeviceEvents cfg render
      (if a.dialOk = true then some a.reads else none)).2 = .sentError := by
  by_cases hd : a.dialOk = true
  · rw [if_pos hd]
    exact readLoop_sentError cfg render a.reads (h hd)
  · rw [if_neg hd]
    rfl

/-- C10, as amended: for every script of dial and read outcomes in which no
successfully read buffer makes the reader panic, `setupTelldus` does not
terminate the process, and every attempt, whatever its outcome, is a dial
followed by the emissions of its reads and a sleep of 5 seconds, after which
the next attempt is dialled; the number of attempts is arbitrary. -/
theorem setupTelldus_retries (cfg : Config) (render : Renderer) (script : List Attempt)
    (h : ∀ a ∈ script, a.dialOk = true →
      ∀ data ∈ a.reads, (handleRead cfg render data).2 = none) :
    (setupTelldus cfg render script).2 = none ∧
    (setupTelldus cfg render script).1 =
      script.flatMap (fun a =>
        .dial :: (readTelldusRawDeviceEvents cfg render
          (if a.dialOk = true then some a.reads else none)).1.map .emit ++ [.sleep 5]) := by
  induction script with
  | nil => exact ⟨rfl, rfl⟩
  | cons a rest ih =>
    have ha := readTelldusRawDeviceEvents_sentError cfg render a (h a (by simp))
    have hrest := ih (fun b hb => h b (by simp [hb]))
    rcases hr : readTelldusRawDeviceEvents cfg render
      (if a.dialOk = true then some a.reads else none) with ⟨ems, e⟩
    rw [hr] at ha
    dsimp only at ha
    subst ha
    rw [setupTelldus, hr]
    dsimp only
    refine ⟨hrest.1, ?_⟩
    rw [List.flatMap_cons, hr, hrest.2]
    simp

/-- Witness of the amended C10: a failed dial, a connection that delivers a
sensor record, and a connection that fails at once give three dials, each
followed by a sleep of 5 seconds. -/
theorem setupTelldus_retries_witness :
    (setupTelldus exampleConfig exampleRender exampleScript).2 = none ∧
    (setupTelldus exampleConfig exampleRender exampleScript).1.filter
      (fun x => decide (x = .dial) || decide (x = .sleep 5)) =
        [.dial, .sleep 5, .dial, .sleep 5, .dial, .sleep 5] :=
  ⟨(setupTelldus_retries exampleConfig exampleRender exampleScript (by decide)).1,
    by decide⟩

/-- Counterexample to C10 as stated: with templates in error, the successful
read of a sensor record makes the reader panic in `parseTemplate`; the process
terminates after the second dial, with no sleep and no third dial. -/
theorem setupTelldus_counterexample :
    setupTelldus exampleConfig failingRender exampleScript =
      ([.dial, .sleep 5, .dial,
          .emit ⟨{ initialEvent with
            Class := "sensor".toList, Temp := "21.5".toList, Humidity := "40".toList }, []⟩],
        some .templateError) := by
  decide

end Telldusmq
